import Mathlib

/-!
Verification development for the GitLab inventory scripts
(`scripts/gitlab-groups.py` and `scripts/gitlab-details.py`).

The two scripts are shallowly embedded: every HTTP interaction is a
parameter of the embedded function (a page server, a header value, a
response option), where `none` models a raised transport exception
(timeout / connection error) and an explicit status code models the
HTTP result.  Machine integers of the scripts are JSON integers, so
they are modelled as `Nat` (counts, byte sizes) and `ℚ` (the one
floating-point computation, `bytes_to_mb`).
-/

namespace GitLabInventory

/-! ## Pagination (`fetch_all_groups`, `fetch_all_projects`)

A listing server maps a page number to either a hard failure
(`PageResp.err`: a non-success status, a timeout or a connection
error — all of them make the Python function `return None`) or a
page of items together with the presence of a non-empty
`X-Next-Page` response header. -/

inductive PageResp (α : Type) where
  | err : PageResp α
  | ok (items : List α) (hasNext : Bool) : PageResp α
deriving DecidableEq

inductive FetchResult (α : Type) where
  | fail : FetchResult α
  | done (items : List α) : FetchResult α
  | fuelOut : FetchResult α
deriving DecidableEq

/-- The `while True` pagination loop shared by `fetch_all_groups`
(gitlab-groups.py lines 116–177, gitlab-details.py lines 255–294) and
`fetch_all_projects` (gitlab-details.py lines 296–359): request page
`page`; on any failure return the failure signal; on an empty page
stop with the accumulated items; otherwise extend the accumulator and
continue exactly when the `X-Next-Page` header is present.  `fuel`
bounds the number of iterations (the Python loop is unbounded). -/
def fetchLoop (server : Nat → PageResp α) : Nat → Nat → List α → FetchResult α
  | 0, _, _ => .fuelOut
  | fuel + 1, page, acc =>
    match server page with
    | .err => .fail
    | .ok [] _ => .done acc
    | .ok (x :: xs) hasNext =>
      if hasNext then fetchLoop server fuel (page + 1) (acc ++ (x :: xs))
      else .done (acc ++ (x :: xs))

/-- Function `fetch_all_groups` starts at page 1 with an empty accumulator. -/
def fetch_all_groups (server : Nat → PageResp α) (fuel : Nat) : FetchResult α :=
  fetchLoop server fuel 1 []

/-- Function `fetch_all_projects` starts at page 1 with an empty accumulator. -/
def fetch_all_projects (server : Nat → PageResp α) (fuel : Nat) : FetchResult α :=
  fetchLoop server fuel 1 []

/-- A two-page server whose second page fails. -/
def failingServer : Nat → PageResp Nat :=
  fun p => if p = 1 then .ok [7] true else .err

/-! ## C7: pagination is a pure re-chunking of one ordered collection -/

/-- A well-behaved server serving the logical collection `l` in pages
of `per` items: page `page` holds the items at offsets
`(page-1)*per … page*per - 1`, and the next-page header is present
exactly when items remain beyond this page. -/
def serverOf (l : List α) (per : Nat) : Nat → PageResp α :=
  fun page => .ok ((l.drop ((page - 1) * per)).take per) (decide (page * per < l.length))

/-! ## `bytes_to_mb` (gitlab-details.py lines 234–238,
gitlab-groups.py lines 110–114) -/

/-- Python `round` ties go to the nearest even integer; on the small
byte counts the scripts handle, `value / (1024*1024)` is an exact
binary operation, so the rational model is faithful. -/
def pyRound (q : ℚ) : ℤ :=
  if q - ⌊q⌋ < 1 / 2 then ⌊q⌋
  else if 1 / 2 < q - ⌊q⌋ then ⌊q⌋ + 1
  else if ⌊q⌋ % 2 = 0 then ⌊q⌋ else ⌊q⌋ + 1

/-- Function `bytes_to_mb`: a `None` input returns `0`; otherwise
`round(bytes_value / (1024 * 1024), 2)`, i.e. rounding to two decimal
places. -/
def bytes_to_mb : Option ℚ → ℚ
  | none => 0
  | some b => (pyRound (b / (1024 * 1024) * 100) : ℚ) / 100

/-! ## Project filter (`load_project_filter`, `should_process_project`,
gitlab-details.py lines 174–253 and the filtering step at 872–876) -/

/-- One row of the filter CSV, holding the two columns the script
reads. -/
structure FilterRow where
  name : String
  migrate : String
deriving DecidableEq

/-- Python `str.strip()`: drop leading and trailing whitespace.
Implemented structurally over the character list so that it
evaluates. -/
def pyStrip (s : String) : String :=
  ⟨(((s.data.dropWhile Char.isWhitespace).reverse.dropWhile Char.isWhitespace).reverse)⟩

/-- The names collected by the row loop of `load_project_filter`:
rows whose stripped "Migrate Repo" value is one of the configured
filter values and whose stripped "Name" is non-empty contribute their
stripped name. -/
def matchedNames (rows : List FilterRow) (values : List String) : List String :=
  (rows.filter (fun r => decide (pyStrip r.migrate ∈ values) && decide (pyStrip r.name ≠ ""))).map
    (fun r => pyStrip r.name)

/-- Function `load_project_filter` (lines 191–221): when the collected set is
empty the function warns and returns `None` (process everything);
otherwise it returns the set.  The earlier `None` branches (no file
configured, file missing, columns missing, read error) are the same
`None` result. -/
def load_project_filter (rows : List FilterRow) (values : List String) :
    Option (List String) :=
  match matchedNames rows values with
  | [] => none
  | n :: ns => some (n :: ns)

/-- The two name fields of a discovered project consulted by
`should_process_project`. -/
structure ProjectEntry where
  name : String
  path : String
deriving DecidableEq

/-- Function `should_process_project` (lines 240–253): with no filter every
project is processed, otherwise the project passes when its name or
path is in the filter. -/
def should_process_project (p : ProjectEntry) (filt : Option (List String)) : Bool :=
  match filt with
  | none => true
  | some f => decide (p.name ∈ f) || decide (p.path ∈ f)

/-- The filtering step of the main block (lines 872–876): the filter
is applied only when `load_project_filter` returned a set. -/
def effectiveProjects (projects : List ProjectEntry) (filt : Option (List String)) :
    List ProjectEntry :=
  match filt with
  | none => projects
  | some _ => projects.filter (fun p => should_process_project p filt)

/-! ## Statistics fallback and size thresholds
(gitlab-details.py main loop lines 944–963) -/

/-- The two byte sizes read from a `statistics` payload
(`repository_size`, `storage_size`), with the `.get(..., 0)`
defaults. -/
structure SizeStats where
  repository_size : Nat
  storage_size : Nat
deriving DecidableEq

/-- Lines 949–956: the listing payload's embedded statistics are
consulted only when both API-derived sizes are zero, and then both
fields are taken from the listing payload. -/
def fallbackSizes (api listing : SizeStats) : SizeStats :=
  if api.repository_size = 0 ∧ api.storage_size = 0 then listing else api

/-! ## Multi-branch file scan (`get_all_branches_file_stats`,
gitlab-details.py lines 700–824)

Every HTTP interaction of the scan is a field of `ScanEnv`:
`tree b p` is the repository-tree listing of branch `b`, page `p`
(`none` = the request raised), and `size b path` is the metadata HEAD
request for one file (`none` = the request raised; `xSize` is the
parsed `X-Gitlab-Size` header, `none` meaning a `ValueError`, with the
absent-header default `'0'` represented as `some 0`). -/

structure TreeItem where
  typ : String
  path : String
deriving DecidableEq

structure TreeResp where
  status : Nat
  items : List TreeItem
  hasNext : Bool
deriving DecidableEq

structure SizeResp where
  status : Nat
  xSize : Option Int
deriving DecidableEq

structure BranchInfo where
  name : String
deriving DecidableEq

structure ScanEnv where
  tree : String → Nat → Option TreeResp
  size : String → String → Option SizeResp

/-- The scan state: the set of unique file paths, the
`large_file_found` flag, and a ghost log of the file-size HEAD
lookups issued so far (branch, path).  The log records the requests
the code sends; it influences nothing. -/
structure ScanState where
  uniqueFiles : List String
  largeFound : Bool
  lookups : List (String × String)

/-- The fixed extension allow-list of lines 773–775. -/
def large_file_patterns : List String :=
  [".zip", ".tar", ".gz", ".iso", ".dmg", ".exe", ".deb", ".rpm",
   ".pkg", ".msi", ".war", ".ear", ".jar", ".pdf", ".mp4",
   ".mov", ".avi", ".mkv", ".mp3", ".wav", ".flac"]

/-- Python `str.lower()`, structurally over the character list. -/
def pyLower (s : String) : String := ⟨s.data.map Char.toLower⟩

/-- Python `str.endswith(suffix)`, structurally over the character
lists. -/
def strEndsWith (s suffix : String) : Bool :=
  suffix.data.reverse.isPrefixOf s.data.reverse

/-- The check `any(file_path.lower().endswith(ext) for ext in large_file_patterns)`
(line 776). -/
def hasLargeExt (path : String) : Bool :=
  large_file_patterns.any (fun ext => strEndsWith (pyLower path) ext)

/-- The insertion `unique_files.add(file_path)` — set insertion (line 767). -/
def insertUnique (s : List String) (x : String) : List String :=
  if x ∈ s then s else s ++ [x]

/-- Whether the size lookup for `(branch, path)` reveals a file
strictly over 100 MiB: the HEAD request did not raise, returned
status 200, the `X-Gitlab-Size` header parsed, and the parsed size
exceeds `100 * 1024 * 1024` (lines 782–792). -/
def lookupIsLarge (env : ScanEnv) (e : String × String) : Bool :=
  match env.size e.1 e.2 with
  | none => false
  | some r =>
    if r.status = 200 then
      match r.xSize with
      | none => false
      | some sz => decide (100 * 1024 * 1024 < sz)
    else false

/-- Lines 765–768: a blob with a non-empty path joins the unique-file
set. -/
def scanItemTrack (st : ScanState) (path : String) : ScanState :=
  if path = "" then st
  else { st with uniqueFiles := insertUnique st.uniqueFiles path }

/-- The size HEAD request and the flag update (lines 777–794): the
lookup is logged; the flag is raised exactly when the lookup reveals
a file over the threshold, all failure modes (raised request,
non-200, unparseable header) fall through silently.  (The probe only
runs while the flag is down, so the disjunction is the source's
conditional assignment.) -/
def scanItemProbe (env : ScanEnv) (branch : String) (st : ScanState) (path : String) :
    ScanState :=
  { st with lookups := st.lookups ++ [(branch, path)],
            largeFound := st.largeFound || lookupIsLarge env (branch, path) }

/-- Lines 771–776: a size lookup is issued only while no large file
has been found, for a non-empty path matching the extension
allow-list. -/
def scanItemLarge (env : ScanEnv) (branch : String) (st : ScanState) (path : String) :
    ScanState :=
  if st.largeFound = false ∧ path ≠ "" ∧ hasLargeExt path = true then
    scanItemProbe env branch st path
  else st

/-- Lines 762–794: one item of a tree page; directories (non-blobs)
are skipped. -/
def scanItem (env : ScanEnv) (branch : String) (st : ScanState) (item : TreeItem) :
    ScanState :=
  if item.typ = "blob" then
    scanItemLarge env branch (scanItemTrack st item.path) item.path
  else st

/-- The per-branch page loop (lines 743–800): at most
`max_pages_per_branch = 5` pages; a raised request or a non-200
response ends the branch; an empty page ends the branch; the loop
continues only on a non-empty `X-Next-Page` header. -/
def scanPages (env : ScanEnv) (branch : String) : Nat → Nat → ScanState → ScanState
  | 0, _, st => st
  | fuel + 1, page, st =>
    match env.tree branch page with
    | none => st
    | some r =>
      if r.status ≠ 200 then st
      else match r.items with
        | [] => st
        | _ :: _ =>
          let st1 := r.items.foldl (scanItem env branch) st
          if r.hasNext then scanPages env branch fuel (page + 1) st1 else st1

/-- Lines 730–733 and 739: a branch with a missing/empty name is
skipped; otherwise its tree is walked for up to 5 pages. -/
def scanBranch (env : ScanEnv) (st : ScanState) (b : BranchInfo) : ScanState :=
  if b.name = "" then st else scanPages env b.name 5 1 st

/-- The scan result: the number of unique files, the large-file flag,
and the ghost lookup log. -/
structure AllBranchesStats where
  total_files : Nat
  has_large_file : Bool
  lookups : List (String × String)

def scanState0 : ScanState := ⟨[], false, []⟩

/-- Function `get_all_branches_file_stats` (lines 700–824): fetch the branch
listing; on failure return the zero/false defaults; otherwise scan
only the first 10 branches (`branches[:10] if len(branches) > 10 else
branches`, line 727). -/
def get_all_branches_file_stats (env : ScanEnv)
    (branchesResp : Option (Nat × List BranchInfo)) : AllBranchesStats :=
  match branchesResp with
  | none => ⟨0, false, []⟩
  | some (status, branches) =>
    if status ≠ 200 then ⟨0, false, []⟩
    else
      let fin := (branches.take 10).foldl (scanBranch env) scanState0
      ⟨fin.uniqueFiles.length, fin.largeFound, fin.lookups⟩

/-- Invariant of the scan state: every logged lookup matches the
extension allow-list; while the flag is down no logged lookup
revealed a large file; once the flag is up, the last logged lookup is
the one that revealed a large file and no lookup was issued after
it. -/
def LogOk (env : ScanEnv) (st : ScanState) : Prop :=
  (∀ e ∈ st.lookups, hasLargeExt e.2 = true) ∧
  (st.largeFound = false → ∀ e ∈ st.lookups, lookupIsLarge env e = false) ∧
  (st.largeFound = true → ∃ l₁ e, st.lookups = l₁ ++ [e] ∧ lookupIsLarge env e = true ∧
    ∀ y ∈ l₁, lookupIsLarge env y = false)

/-- A one-branch environment containing one archive file of 200 MiB. -/
def scanEnvW : ScanEnv :=
  { tree := fun b p =>
      if b = "main" ∧ p = 1 then some ⟨200, [⟨"blob", "big.zip"⟩], false⟩ else none,
    size := fun b p =>
      if b = "main" ∧ p = "big.zip" then some ⟨200, some (200 * 1024 * 1024)⟩ else none }

def branchesW : Option (Nat × List BranchInfo) := some (200, [⟨"main"⟩])

/-! ## Count helpers and the per-project aggregation
(gitlab-details.py lines 361–698 and the main loop) -/

/-- A HEAD/GET response carrying a status code and the parsed
`X-Total` header when present. -/
structure HResp where
  status : Nat
  xTotal : Option Nat
deriving DecidableEq

/-- Function `get_branch_count` (lines 361–388): try a HEAD request; use its
`X-Total` when the status is 200 and the header is present; otherwise
fall back to a GET whose `X-Total` is preferred over the body length;
any raised request yields 0.  `gt` carries the GET response and the
body item count. -/
def get_branch_count (headResp : Option HResp) (gt : Option (HResp × Nat)) : Nat :=
  match headResp with
  | none => 0
  | some h =>
    if h.status = 200 ∧ h.xTotal.isSome then h.xTotal.getD 0
    else
      match gt with
      | none => 0
      | some (g, bodyCount) =>
        if g.status = 200 then
          match g.xTotal with
          | some t => t
          | none => bodyCount
        else 0

/-- The fixed ordered list of conventional pipeline file names
(lines 616–623). -/
def pipeline_files : List String :=
  [".gitlab-ci.yml", ".gitlab-ci.yaml", "gitlab-ci.yml", "gitlab-ci.yaml",
   ".gitlab/ci.yml", ".gitlab/ci.yaml"]

/-- Function `check_for_pipeline_config` (lines 594–653): needs the project
info (status, default branch); a raised request, a non-200 status or
a missing default branch give `false`; otherwise the conventional
file names are probed in order and the first HEAD status 200 wins
(raised probes are skipped). -/
def check_for_pipeline_config (projInfo : Option (Nat × Option String))
    (check : String → Option Nat) : Bool :=
  match projInfo with
  | none => false
  | some (status, db) =>
    if status ≠ 200 then false
    else if db.getD "" = "" then false
    else pipeline_files.any (fun f => decide ((check f).getD 0 = 200))

/-- The project-info payload consulted by
`get_repository_file_count`: status, default branch,
`statistics.repository_size` (defaulted to 0). -/
structure ProjInfo where
  status : Nat
  default_branch : Option String
  repo_size : Nat
deriving DecidableEq

/-- The tree-pagination loop of `get_repository_file_count` (lines
448–514): up to `max_pages = 50` pages; a raised request or any
non-200/404 status ends the count; a 404 returns 0 for the whole
function; only blob entries are counted; continue on a non-empty
`X-Next-Page`. -/
def countBlobs (tree : Nat → Option TreeResp) : Nat → Nat → Nat → Nat
  | 0, _, acc => acc
  | fuel + 1, page, acc =>
    match tree page with
    | none => acc
    | some r =>
      if r.status = 404 then 0
      else if r.status ≠ 200 then acc
      else match r.items with
        | [] => acc
        | _ :: _ =>
          let acc1 := acc + (r.items.filter (fun i => i.typ == "blob")).length
          if r.hasNext then countBlobs tree fuel (page + 1) acc1 else acc1

/-- Function `get_repository_file_count` (lines 390–526).  The large-repo
special path triggers when the repository size exceeds 10000 MiB
(`repo_size / 2^20 > 10000` is exact in binary floating point for
realistic sizes, hence the integer comparison): a successful commits
HEAD followed by a successful search HEAD returns the search total
(or 0); a raised commits/search request falls back to the standard
tree count. -/
def get_repository_file_count (pinfo : Option ProjInfo) (commitsHead : Option Nat)
    (searchHead : Option (Nat × Option Nat)) (tree : Nat → Option TreeResp) : Nat :=
  match pinfo with
  | none => 0
  | some info =>
    if info.status ≠ 200 then 0
    else if info.default_branch.getD "" = "" then 0
    else
      let special : Option Nat :=
        if 10000 * (1024 * 1024) < info.repo_size then
          match commitsHead with
          | none => none
          | some cs =>
            if cs = 200 then
              match searchHead with
              | none => none
              | some (ss, total) =>
                if ss = 200 ∧ total.isSome ∧ 0 < total.getD 0 then some (total.getD 0)
                else some 0
            else none
        else none
      match special with
      | some n => n
      | none => countBlobs tree 50 1 0

/-- The `stats` dictionary of `get_repository_stats_via_api`
(lines 534–546). -/
structure RepoStats where
  file_count : Nat
  repository_size : Nat
  storage_size : Nat
  commit_count : Nat
  branch_count : Nat
  object_count : Nat
  all_branches_file_count : Nat
  has_large_file : Bool
  exceeds_6gb : Bool
  exceeds_2gb : Bool
  has_pipeline : Bool
deriving DecidableEq

def repoStatsDefaults : RepoStats := ⟨0, 0, 0, 0, 0, 0, 0, false, false, false, false⟩

/-- A concrete stats record exercising the object-count paths:
10 commits, 5 branches, 3 default-branch files, 20 all-branches
files. -/
def repoStatsRich : RepoStats :=
  { repoStatsDefaults with
    commit_count := 10, branch_count := 5,
    file_count := 3, all_branches_file_count := 20 }

/-- The `statistics` block of a project payload, with the
`.get(..., 0)` defaults applied. -/
structure ApiStatistics where
  repository_size : Nat
  storage_size : Nat
  commit_count : Nat
deriving DecidableEq

/-- Function `get_repository_object_count` (lines 656–698): commit count +
branch count + tag count (when the tags HEAD succeeds with an
`X-Total`) + file count + estimated tree objects
(`max(file_count // 10, 1)`) + merge-request count (same condition).
The file count used is `existing_stats.get('all_branches_file_count',
...)`, whose key is always present at the call site.  A raised tags
or merge-requests HEAD is caught and degrades the whole estimate to
`commit_count + file_count`. -/
def get_repository_object_count (tagResp mrResp : Option HResp) (st : RepoStats) : Nat :=
  match tagResp with
  | none => st.commit_count + st.file_count
  | some tr =>
    let withTags := st.commit_count + st.branch_count +
      (if tr.status = 200 ∧ tr.xTotal.isSome then tr.xTotal.getD 0 else 0)
    let fc := st.all_branches_file_count
    let withFiles := withTags + fc + max (fc / 10) 1
    match mrResp with
    | none => st.commit_count + st.file_count
    | some mr =>
      withFiles + (if mr.status = 200 ∧ mr.xTotal.isSome then mr.xTotal.getD 0 else 0)

/-- All HTTP interactions of one `get_repository_stats_via_api`
call. -/
structure StatsEnv where
  projDetails : Option (Nat × Option ApiStatistics)
  fcProjInfo : Option ProjInfo
  fcCommitsHead : Option Nat
  fcSearchHead : Option (Nat × Option Nat)
  fcTree : Nat → Option TreeResp
  bcHead : Option HResp
  bcGet : Option (HResp × Nat)
  plProjInfo : Option (Nat × Option String)
  plCheck : String → Option Nat
  abBranches : Option (Nat × List BranchInfo)
  abEnv : ScanEnv
  ocTags : Option HResp
  ocMRs : Option HResp

/-- Function `get_repository_stats_via_api` (lines 528–593): defaults, then
the project-details statistics (only on status 200 with a non-empty
statistics block), then each sub-query in turn; a raised
project-details request is caught by the enclosing handler and
returns the untouched defaults. -/
def get_repository_stats_via_api (e : StatsEnv) : RepoStats :=
  match e.projDetails with
  | none => repoStatsDefaults
  | some (status, stOpt) =>
    let s1 :=
      if status = 200 then
        match stOpt with
        | some st =>
          { repoStatsDefaults with
            repository_size := st.repository_size,
            storage_size := st.storage_size,
            commit_count := st.commit_count,
            exceeds_2gb := decide (2 * 1024 * 1024 * 1024 < st.storage_size),
            exceeds_6gb := decide (6 * 1024 * 1024 * 1024 < st.storage_size) }
        | none => repoStatsDefaults
      else repoStatsDefaults
    let ab := get_all_branches_file_stats e.abEnv e.abBranches
    let s2 := { s1 with
      file_count := get_repository_file_count e.fcProjInfo e.fcCommitsHead
        e.fcSearchHead e.fcTree,
      branch_count := get_branch_count e.bcHead e.bcGet,
      has_pipeline := check_for_pipeline_config e.plProjInfo e.plCheck,
      all_branches_file_count := ab.total_files,
      has_large_file := ab.has_large_file }
    { s2 with object_count := get_repository_object_count e.ocTags e.ocMRs s2 }

/-- The merge-request count of the main loop (lines 931–941): 0 on a
raised request, a non-200 status or a missing `X-Total` header. -/
def mainMergeRequestCount (resp : Option HResp) : Nat :=
  match resp with
  | none => 0
  | some r => if r.status = 200 ∧ r.xTotal.isSome then r.xTotal.getD 0 else 0

/-! ## The emitted project record (main loop lines 897–999) -/

/-- A CSV cell value. -/
inductive Value where
  | n (v : Nat) : Value
  | s (v : String) : Value
  | b (v : Bool) : Value
  | q (v : ℚ) : Value
deriving DecidableEq

/-- The fields of one project entry of the listing payload that the
main loop reads, with optional keys as `Option` (the `.get` defaults
are applied at use sites). -/
structure ListingProject where
  id : Nat
  name : String
  path_with_namespace : String
  archived : Option Bool
  star_count : Option Nat
  forks_count : Option Nat
  open_issues_count : Option Nat
  last_activity_at : Option String
  visibility : Option String
  created_at : Option String
  default_branch : Option String
  web_url : Option String
  group_name : Option String
  group_path : Option String
  statistics : Option SizeStats

/-- The storage size the record is ultimately derived from: the API
statistics, falling back to the listing payload's embedded statistics
when both API sizes are zero (lines 944–956). -/
def finalStorageSize (p : ListingProject) (rs : RepoStats) : Nat :=
  (fallbackSizes ⟨rs.repository_size, rs.storage_size⟩ (p.statistics.getD ⟨0, 0⟩)).storage_size

/-- The `project_stats` dictionary (lines 944–997): sizes fall back
to the listing payload when both API sizes are zero, the two
size-threshold booleans are recomputed from the final storage size
(lines 959–960), and the record is built with its fixed key set. -/
def project_stats (p : ListingProject) (contributors total_commits merge_request_count : Nat)
    (rs : RepoStats) : List (String × Value) :=
  let fin := fallbackSizes ⟨rs.repository_size, rs.storage_size⟩ (p.statistics.getD ⟨0, 0⟩)
  let is_archived := p.archived.getD false
  let exceeds_2gb := decide (2 * 1024 * 1024 * 1024 < fin.storage_size)
  let exceeds_6gb := decide (6 * 1024 * 1024 * 1024 < fin.storage_size)
  [("id", .n p.id),
   ("group_name", .s (p.group_name.getD "N/A")),
   ("project_name", .s p.name),
   ("group_path", .s (p.group_path.getD "N/A")),
   ("path", .s p.path_with_namespace),
   ("status", .s (if is_archived then "archived" else "active")),
   ("archived", .b is_archived),
   ("stars", .n (p.star_count.getD 0)),
   ("forks", .n (p.forks_count.getD 0)),
   ("open_issues", .n (p.open_issues_count.getD 0)),
   ("merge_requests", .n merge_request_count),
   ("last_activity", .s (p.last_activity_at.getD "N/A")),
   ("contributors", .n contributors),
   ("total_commits", .n total_commits),
   ("branch_count", .n rs.branch_count),
   ("file_count", .n rs.file_count),
   ("all_branches_file_count", .n rs.all_branches_file_count),
   ("total_objects", .n rs.object_count),
   ("repository_size_mb", .q (bytes_to_mb (some (fin.repository_size : ℚ)))),
   ("total_size_mb", .q (bytes_to_mb (some (fin.storage_size : ℚ)))),
   ("has_large_file_100mb", .b rs.has_large_file),
   ("exceeds_2gb", .b exceeds_2gb),
   ("exceeds_6gb", .b exceeds_6gb),
   ("pipeline", .b rs.has_pipeline),
   ("visibility", .s (p.visibility.getD "N/A")),
   ("created_at", .s (p.created_at.getD "N/A")),
   ("default_branch", .s (p.default_branch.getD "main")),
   ("web_url", .s (p.web_url.getD "N/A"))]

/-- The fixed CSV column order (lines 1023–1031). -/
def project_fieldnames : List String :=
  ["id", "group_name", "project_name", "group_path", "path", "status", "archived",
   "stars", "forks", "open_issues", "merge_requests",
   "last_activity", "contributors", "total_commits", "branch_count",
   "file_count", "all_branches_file_count", "total_objects",
   "repository_size_mb", "total_size_mb", "has_large_file_100mb",
   "exceeds_2gb", "exceeds_6gb", "pipeline", "visibility",
   "created_at", "default_branch", "web_url"]

/-- Field access in a record. -/
def lookupField (r : List (String × Value)) (k : String) : Option Value :=
  (r.find? (fun kv => kv.1 == k)).map Prod.snd

/-- An all-failures environment: every HTTP interaction raises. -/
def statsEnvFail : StatsEnv :=
  { projDetails := none, fcProjInfo := none, fcCommitsHead := none, fcSearchHead := none,
    fcTree := fun _ => none, bcHead := none, bcGet := none, plProjInfo := none,
    plCheck := fun _ => none, abBranches := none,
    abEnv := ⟨fun _ _ => none, fun _ _ => none⟩, ocTags := none, ocMRs := none }

/-- A concrete listing entry for witnesses. -/
def listingW : ListingProject :=
  { id := 1, name := "demo", path_with_namespace := "grp/demo",
    archived := none, star_count := none, forks_count := none,
    open_issues_count := none, last_activity_at := none, visibility := none,
    created_at := none, default_branch := none, web_url := none,
    group_name := none, group_path := none,
    statistics := some ⟨0, 6 * 1024 * 1024 * 1024 + 1⟩ }

/-! ## Process exit behaviour (main blocks:
gitlab-details.py lines 829–881 and 1019–1041,
gitlab-groups.py lines 254–269 and 343–362) -/

/-- The observable outcome of one script run: a non-zero exit, a zero
exit with no output file written, or a zero exit after writing `n`
records. -/
inductive Outcome where
  | failure : Outcome
  | successNoOutput : Outcome
  | successWrote (records : Nat) : Outcome
deriving DecidableEq

/-- The group fields the main loops read. -/
structure GroupEntry where
  name : String
  full_path : String
deriving DecidableEq

/-- The main block of gitlab-groups.py: exit 1 when no token is
resolvable (the config section) or the listing fetch returned the
failure signal; exit 0 without writing when no group was discovered;
otherwise per-group aggregation (groups whose processing raises are
skipped) and the CSV is written only when at least one record
remains. -/
def groupsMain (token : Option String) (groups : Option (List GroupEntry))
    (aggregateOk : GroupEntry → Bool) : Outcome :=
  match token with
  | none => .failure
  | some _ =>
    match groups with
    | none => .failure
    | some gs =>
      if gs.isEmpty then .successNoOutput
      else
        let stats := gs.filter aggregateOk
        if stats.isEmpty then .successNoOutput else .successWrote stats.length

/-- The main block of gitlab-details.py: exit 1 when no token is
resolvable or the initial group listing fetch failed; exit 0 without
writing when no group was discovered; collect projects per group
(a failed per-group project fetch is skipped), filter, exit 0 without
writing when no project remains; otherwise aggregate (projects whose
processing raises are skipped) and write only when at least one
record remains. -/
def detailsMain (token : Option String) (groups : Option (List GroupEntry))
    (projectsOf : GroupEntry → Option (List ProjectEntry))
    (filt : Option (List String)) (aggregateOk : ProjectEntry → Bool) : Outcome :=
  match token with
  | none => .failure
  | some _ =>
    match groups with
    | none => .failure
    | some gs =>
      if gs.isEmpty then .successNoOutput
      else
        let allProjects := gs.foldl (fun acc g => acc ++ (projectsOf g).getD []) []
        let projects := effectiveProjects allProjects filt
        if projects.isEmpty then .successNoOutput
        else
          let stats := projects.filter aggregateOk
          if stats.isEmpty then .successNoOutput else .successWrote stats.length

/-! ## Lemmas and theorems -/

lemma fetchLoop_err_of_ok_run (server : Nat → PageResp α) :
    ∀ (k fuel page : Nat) (acc : List α),
      (∀ i, i < k → ∃ x xs, server (page + i) = .ok (x :: xs) true) →
      server (page + k) = .err → k < fuel →
      fetchLoop server fuel page acc = .fail := by
  intro k
  induction k with
  | zero =>
    intro fuel page acc _ herr hfuel
    obtain ⟨f, rfl⟩ := Nat.exists_eq_succ_of_ne_zero (Nat.pos_iff_ne_zero.mp hfuel)
    simp only [Nat.add_zero] at herr
    simp [fetchLoop, herr]
  | succ k ih =>
    intro fuel page acc hok herr hfuel
    obtain ⟨f, rfl⟩ := Nat.exists_eq_succ_of_ne_zero (Nat.pos_iff_ne_zero.mp
      (Nat.lt_of_le_of_lt (Nat.zero_le _) hfuel))
    obtain ⟨x, xs, hx⟩ := hok 0 (Nat.succ_pos k)
    simp only [Nat.add_zero] at hx
    have hrec : fetchLoop server (f + 1) page acc =
        fetchLoop server f (page + 1) (acc ++ (x :: xs)) := by
      simp [fetchLoop, hx]
    rw [hrec]
    apply ih f (page + 1) (acc ++ (x :: xs))
    · intro i hi
      obtain ⟨y, ys, hy⟩ := hok (i + 1) (Nat.succ_lt_succ hi)
      exact ⟨y, ys, by rw [show page + 1 + i = page + (i + 1) by omega]; exact hy⟩
    · rw [show page + 1 + k = page + (k + 1) by omega]; exact herr
    · omega

/-- C1: if the first `k` pages succeed non-empty with a next-page
indicator and page `k+1` fails (non-success status, timeout or
connection error), then both listing fetchers return the failure
signal (`.fail`, the embedding of Python `None`) and never a partial
list, no matter how many items were already accumulated. -/
theorem listing_fetch_aborts_on_failure (server : Nat → PageResp α) (k fuel : Nat)
    (hok : ∀ i, i < k → ∃ x xs, server (1 + i) = .ok (x :: xs) true)
    (herr : server (1 + k) = .err) (hfuel : k < fuel) :
    fetch_all_projects server fuel = .fail ∧ fetch_all_groups server fuel = .fail := by
  constructor <;>
    exact fetchLoop_err_of_ok_run server k fuel 1 [] hok herr hfuel

/-- Witness for C1 at a concrete server: page 1 returns one item with
a next-page header, page 2 fails, and the fetch returns `.fail`. -/
theorem listing_fetch_aborts_on_failure_witness :
    fetch_all_projects failingServer 3 = .fail ∧
    fetch_all_groups failingServer 3 = .fail := by
  apply listing_fetch_aborts_on_failure failingServer 1 3
  · intro i hi
    interval_cases i
    exact ⟨7, [], rfl⟩
  · rfl
  · omega

lemma fetchLoop_serverOf (l : List α) (per : Nat) (hper : 0 < per) :
    ∀ (fuel q : Nat) (acc : List α), l.length ≤ (q + fuel) * per →
      fetchLoop (serverOf l per) (fuel + 1) (q + 1) acc =
        .done (acc ++ l.drop (q * per)) := by
  intro fuel
  induction fuel with
  | zero =>
    intro q acc hlen
    simp only [Nat.add_zero] at hlen
    have hdrop : l.drop (q * per) = [] := List.drop_eq_nil_of_le hlen
    simp [fetchLoop, serverOf, Nat.add_sub_cancel, hdrop]
  | succ f ih =>
    intro q acc hlen
    obtain ⟨m, hm⟩ := Nat.exists_eq_succ_of_ne_zero (Nat.pos_iff_ne_zero.mp hper)
    rcases hd : l.drop (q * per) with _ | ⟨x, xs⟩
    · simp [fetchLoop, serverOf, Nat.add_sub_cancel, hd]
    · have htake : (l.drop (q * per)).take per = x :: xs.take m := by
        rw [hd, hm]
        simp [List.take_succ_cons]
      by_cases hnext : (q + 1) * per < l.length
      · have hstep : fetchLoop (serverOf l per) (f + 1 + 1) (q + 1) acc =
            fetchLoop (serverOf l per) (f + 1) (q + 1 + 1) (acc ++ (x :: xs.take m)) := by
          simp [fetchLoop, serverOf, Nat.add_sub_cancel, htake, hnext]
        have hih : fetchLoop (serverOf l per) (f + 1) (q + 1 + 1) (acc ++ (x :: xs.take m)) =
            .done ((acc ++ (x :: xs.take m)) ++ l.drop ((q + 1) * per)) := by
          apply ih (q + 1) (acc ++ (x :: xs.take m))
          have heq : (q + 1 + f) * per = (q + (f + 1)) * per := by ring
          rw [heq]; exact hlen
        have hdropstep : l.drop ((q + 1) * per) = xs.drop m := by
          have h1 : (q + 1) * per = q * per + per := by ring
          rw [h1, ← List.drop_drop, hd, hm]
          simp [List.drop_succ_cons]
        rw [hstep, hih, hdropstep]
        have hjoin : (acc ++ (x :: xs.take m)) ++ xs.drop m = acc ++ (x :: xs) := by
          rw [List.append_assoc]
          simp [List.take_append_drop]
        rw [hjoin]
      · have hstep : fetchLoop (serverOf l per) (f + 1 + 1) (q + 1) acc =
            .done (acc ++ (x :: xs.take m)) := by
          simp [fetchLoop, serverOf, Nat.add_sub_cancel, htake, hnext]
        have hxslen : xs.length ≤ m := by
          have hLd : (l.drop (q * per)).length = l.length - q * per := List.length_drop _ _
          rw [hd] at hLd
          simp only [List.length_cons] at hLd
          have hle : l.length ≤ (q + 1) * per := Nat.le_of_not_lt hnext
          have : (q + 1) * per = q * per + per := by ring
          omega
        rw [hstep, List.take_of_length_le hxslen]

/-- C7: a successful paginated listing is a pure re-chunking of one
logical ordered collection: for every collection `l` and every
positive page size, both fetchers return exactly `l` (the
concatenation of the successive pages in server order), terminating
at the first empty page or missing next-page header. -/
theorem pagination_rechunk (l : List α) (per fuel : Nat) (hper : 0 < per)
    (hfuel : l.length ≤ fuel * per) :
    fetch_all_projects (serverOf l per) (fuel + 1) = .done l ∧
    fetch_all_groups (serverOf l per) (fuel + 1) = .done l := by
  have h := fetchLoop_serverOf l per hper fuel 0 [] (by simpa using hfuel)
  simp only [Nat.zero_mul, List.drop_zero, List.nil_append] at h
  exact ⟨h, h⟩

/-- Witness for C7: the collection `[1,2,3]` with page size 2 is
returned whole by both fetchers. -/
theorem pagination_rechunk_witness :
    (0 < 2 ∧ ([1, 2, 3] : List Nat).length ≤ 2 * 2) ∧
    fetch_all_projects (serverOf [1, 2, 3] 2) 3 = .done [1, 2, 3] := by
  refine ⟨⟨by norm_num, by norm_num⟩, ?_⟩
  exact (pagination_rechunk [1, 2, 3] 2 2 (by norm_num) (by norm_num)).1

/-- C4: the bytes-to-megabytes conversion maps `None` to 0, 0 to 0,
`1048576` to 1.0, and every result is an integer number of
hundredths (two decimal places). -/
theorem bytes_to_mb_spec :
    bytes_to_mb none = 0 ∧ bytes_to_mb (some 0) = 0 ∧
    bytes_to_mb (some 1048576) = 1 ∧
    ∀ b : ℚ, ∃ k : ℤ, bytes_to_mb (some b) = (k : ℚ) / 100 := by
  refine ⟨rfl, ?_, ?_, fun b => ⟨pyRound (b / (1024 * 1024) * 100), rfl⟩⟩
  · norm_num [bytes_to_mb, pyRound]
  · norm_num [bytes_to_mb, pyRound]

/-- C3: when no row of the filter file matches any configured filter
value, the loader returns `None` and the effective project set equals
the full discovered set — the filter is ignored, not applied as an
empty allow-list. -/
theorem empty_filter_falls_back (rows : List FilterRow) (values : List String)
    (projects : List ProjectEntry) (h : matchedNames rows values = []) :
    load_project_filter rows values = none ∧
    effectiveProjects projects (load_project_filter rows values) = projects := by
  have hl : load_project_filter rows values = none := by
    unfold load_project_filter
    rw [h]
  exact ⟨hl, by rw [hl]; rfl⟩

/-- Witness for C3: a filter file with one non-matching row leaves a
two-project discovery set untouched. -/
theorem empty_filter_falls_back_witness :
    matchedNames [⟨"alpha", "Keep"⟩] ["Migrate"] = [] ∧
    effectiveProjects [⟨"alpha", "grp/alpha"⟩, ⟨"beta", "grp/beta"⟩]
      (load_project_filter [⟨"alpha", "Keep"⟩] ["Migrate"]) =
      [⟨"alpha", "grp/alpha"⟩, ⟨"beta", "grp/beta"⟩] := by
  have h : matchedNames [⟨"alpha", "Keep"⟩] ["Migrate"] = [] := by decide
  exact ⟨h, (empty_filter_falls_back _ _ _ h).2⟩

/-- C10: the fallback to the listing payload happens only when both
API sizes are zero; when at least one is nonzero the listing payload
is not consulted and a zero field stays zero in the final values. -/
theorem fallback_requires_both_zero (api listing : SizeStats) :
    (api.repository_size = 0 ∧ api.storage_size = 0 →
      fallbackSizes api listing = listing) ∧
    (api.repository_size ≠ 0 ∨ api.storage_size ≠ 0 →
      fallbackSizes api listing = api) ∧
    (api.repository_size = 0 → api.storage_size ≠ 0 →
      (fallbackSizes api listing).repository_size = 0) ∧
    (api.storage_size = 0 → api.repository_size ≠ 0 →
      (fallbackSizes api listing).storage_size = 0) := by
  refine ⟨fun h => by simp [fallbackSizes, h], fun h => ?_, fun h1 h2 => ?_, fun h1 h2 => ?_⟩
  · rcases h with h | h <;> simp [fallbackSizes, h]
  · simp [fallbackSizes, h1, h2]
  · simp [fallbackSizes, h1, h2]

/-- Witness for C10 at concrete inputs: a nonzero repository size
with zero storage size keeps the API pair untouched. -/
theorem fallback_requires_both_zero_witness :
    fallbackSizes ⟨5, 0⟩ ⟨100, 200⟩ = ⟨5, 0⟩ ∧
    (fallbackSizes ⟨5, 0⟩ ⟨100, 200⟩).storage_size = 0 ∧
    fallbackSizes ⟨0, 0⟩ ⟨100, 200⟩ = ⟨100, 200⟩ := by
  refine ⟨(fallback_requires_both_zero ⟨5, 0⟩ ⟨100, 200⟩).2.1 (by simp), ?_, ?_⟩
  · exact (fallback_requires_both_zero ⟨5, 0⟩ ⟨100, 200⟩).2.2.2 rfl (by simp)
  · exact (fallback_requires_both_zero ⟨0, 0⟩ ⟨100, 200⟩).1 ⟨rfl, rfl⟩

lemma logOk_scanState0 (env : ScanEnv) : LogOk env scanState0 :=
  ⟨by simp [scanState0], by simp [scanState0], by simp [scanState0]⟩

lemma scanItemTrack_fields (st : ScanState) (path : String) :
    (scanItemTrack st path).lookups = st.lookups ∧
    (scanItemTrack st path).largeFound = st.largeFound := by
  unfold scanItemTrack
  split <;> simp

lemma logOk_scanItemTrack (env : ScanEnv) (st : ScanState) (path : String)
    (h : LogOk env st) : LogOk env (scanItemTrack st path) := by
  obtain ⟨h1, h2⟩ := scanItemTrack_fields st path
  exact ⟨by rw [h1]; exact h.1, by rw [h1, h2]; exact h.2.1, by rw [h1, h2]; exact h.2.2⟩

lemma logOk_scanItemProbe (env : ScanEnv) (branch : String) (st : ScanState) (path : String)
    (h : LogOk env st) (hlf : st.largeFound = false) (hext : hasLargeExt path = true) :
    LogOk env (scanItemProbe env branch st path) := by
  obtain ⟨he, hfa, _⟩ := h
  have hexts : ∀ e ∈ st.lookups ++ [(branch, path)], hasLargeExt e.2 = true := by
    intro e hev
    rcases List.mem_append.mp hev with hold | hnew
    · exact he e hold
    · simp only [List.mem_singleton] at hnew
      rw [hnew]; exact hext
  unfold scanItemProbe
  rw [hlf]
  cases hl : lookupIsLarge env (branch, path) with
  | false =>
    refine ⟨hexts, fun _ e hev => ?_, fun hc => by simp at hc⟩
    rcases List.mem_append.mp hev with hold | hnew
    · exact hfa hlf e hold
    · simp only [List.mem_singleton] at hnew
      rw [hnew]; exact hl
  | true =>
    refine ⟨hexts, fun hc => by simp at hc, fun _ => ?_⟩
    exact ⟨st.lookups, (branch, path), rfl, hl, hfa hlf⟩

lemma logOk_scanItemLarge (env : ScanEnv) (branch : String) (st : ScanState) (path : String)
    (h : LogOk env st) : LogOk env (scanItemLarge env branch st path) := by
  unfold scanItemLarge
  split
  case isTrue hc => exact logOk_scanItemProbe env branch st path h hc.1 hc.2.2
  case isFalse => exact h

lemma logOk_scanItem (env : ScanEnv) (branch : String) (st : ScanState) (item : TreeItem)
    (h : LogOk env st) : LogOk env (scanItem env branch st item) := by
  unfold scanItem
  split
  · exact logOk_scanItemLarge env branch _ item.path (logOk_scanItemTrack env st item.path h)
  · exact h

lemma logOk_foldl_scanItem (env : ScanEnv) (branch : String) (items : List TreeItem) :
    ∀ st : ScanState, LogOk env st → LogOk env (items.foldl (scanItem env branch) st) := by
  induction items with
  | nil => intro st h; exact h
  | cons x xs ih =>
    intro st h
    exact ih (scanItem env branch st x) (logOk_scanItem env branch st x h)

lemma logOk_scanPages (env : ScanEnv) (branch : String) :
    ∀ (fuel page : Nat) (st : ScanState), LogOk env st →
      LogOk env (scanPages env branch fuel page st) := by
  intro fuel
  induction fuel with
  | zero => intro page st h; exact h
  | succ f ih =>
    intro page st h
    unfold scanPages
    cases env.tree branch page with
    | none => exact h
    | some r =>
      simp only
      split
      · exact h
      · cases hitems : r.items with
        | nil => exact h
        | cons y ys =>
          simp only
          split
          · exact ih (page + 1) _ (by
              rw [← hitems]
              exact logOk_foldl_scanItem env branch r.items st h)
          · rw [← hitems]
            exact logOk_foldl_scanItem env branch r.items st h

lemma logOk_scanBranch (env : ScanEnv) (st : ScanState) (b : BranchInfo)
    (h : LogOk env st) : LogOk env (scanBranch env st b) := by
  unfold scanBranch
  split
  · exact h
  · exact logOk_scanPages env b.name 5 1 st h

lemma logOk_foldl_scanBranch (env : ScanEnv) (bs : List BranchInfo) :
    ∀ st : ScanState, LogOk env st → LogOk env (bs.foldl (scanBranch env) st) := by
  induction bs with
  | nil => intro st h; exact h
  | cons b rest ih =>
    intro st h
    exact ih (scanBranch env st b) (logOk_scanBranch env st b h)

lemma logOk_scan_result (env : ScanEnv) (branchesResp : Option (Nat × List BranchInfo)) :
    (∀ e ∈ (get_all_branches_file_stats env branchesResp).lookups, hasLargeExt e.2 = true) ∧
    ((get_all_branches_file_stats env branchesResp).has_large_file = false →
      ∀ e ∈ (get_all_branches_file_stats env branchesResp).lookups,
        lookupIsLarge env e = false) ∧
    ((get_all_branches_file_stats env branchesResp).has_large_file = true →
      ∃ l₁ e, (get_all_branches_file_stats env branchesResp).lookups = l₁ ++ [e] ∧
        lookupIsLarge env e = true ∧ ∀ y ∈ l₁, lookupIsLarge env y = false) := by
  rcases branchesResp with _ | ⟨status, branches⟩
  · exact ⟨by simp [get_all_branches_file_stats], by simp [get_all_branches_file_stats],
      by simp [get_all_branches_file_stats]⟩
  · by_cases hs : status ≠ 200
    · have hr : get_all_branches_file_stats env (some (status, branches)) = ⟨0, false, []⟩ := by
        simp [get_all_branches_file_stats, hs]
      rw [hr]
      exact ⟨by simp, by simp, by simp⟩
    · have hlog := logOk_foldl_scanBranch env (branches.take 10) scanState0 (logOk_scanState0 env)
      have hr : get_all_branches_file_stats env (some (status, branches)) =
          ⟨((branches.take 10).foldl (scanBranch env) scanState0).uniqueFiles.length,
           ((branches.take 10).foldl (scanBranch env) scanState0).largeFound,
           ((branches.take 10).foldl (scanBranch env) scanState0).lookups⟩ := by
        simp [get_all_branches_file_stats, hs]
      rw [hr]
      exact ⟨hlog.1, hlog.2.1, hlog.2.2⟩

/-- C9: the multi-branch large-file scan (a) inspects at most the
first 10 branches of the branch listing (truncating the listing to
its first 10 branches changes nothing), (b) issues size lookups only
for paths matching the fixed archive/media/binary extension
allow-list, (c) raises the large-file flag exactly when one of the
issued lookups revealed a byte size strictly above
`100 * 1024 * 1024`, and (d) stops issuing size lookups once one
large file is found: the revealing lookup is the last one issued. -/
theorem all_branches_scan_spec (env : ScanEnv)
    (branchesResp : Option (Nat × List BranchInfo)) :
    (get_all_branches_file_stats env
        (branchesResp.map (fun p => (p.1, p.2.take 10))) =
      get_all_branches_file_stats env branchesResp) ∧
    (∀ e ∈ (get_all_branches_file_stats env branchesResp).lookups,
      hasLargeExt e.2 = true) ∧
    ((get_all_branches_file_stats env branchesResp).has_large_file = true ↔
      ∃ e ∈ (get_all_branches_file_stats env branchesResp).lookups,
        lookupIsLarge env e = true) ∧
    ((get_all_branches_file_stats env branchesResp).has_large_file = true →
      ∃ l₁ e, (get_all_branches_file_stats env branchesResp).lookups = l₁ ++ [e] ∧
        lookupIsLarge env e = true ∧ ∀ y ∈ l₁, lookupIsLarge env y = false) := by
  obtain ⟨hext, hfalse, htrue⟩ := logOk_scan_result env branchesResp
  refine ⟨?_, hext, ⟨?_, ?_⟩, htrue⟩
  · cases branchesResp with
    | none => rfl
    | some p => simp [get_all_branches_file_stats, List.take_take]
  · intro h
    obtain ⟨l₁, e, hsplit, hlarge, _⟩ := htrue h
    exact ⟨e, by rw [hsplit]; simp, hlarge⟩
  · intro h
    obtain ⟨e, hev, hlarge⟩ := h
    by_contra hnot
    have hf : (get_all_branches_file_stats env branchesResp).has_large_file = false := by
      cases hv : (get_all_branches_file_stats env branchesResp).has_large_file
      · rfl
      · exact absurd hv hnot
    have := hfalse hf e hev
    rw [this] at hlarge
    exact Bool.false_ne_true hlarge

/-- Witness for C9: in `scanEnvW` the flag is raised and the
revealing lookup closes the lookup log. -/
theorem all_branches_scan_spec_witness :
    (get_all_branches_file_stats scanEnvW branchesW).has_large_file = true ∧
    ∃ l₁ e, (get_all_branches_file_stats scanEnvW branchesW).lookups = l₁ ++ [e] ∧
      lookupIsLarge scanEnvW e = true ∧ ∀ y ∈ l₁, lookupIsLarge scanEnvW y = false := by
  have h : (get_all_branches_file_stats scanEnvW branchesW).has_large_file = true := by decide
  exact ⟨h, (all_branches_scan_spec scanEnvW branchesW).2.2.2 h⟩

/-- C8: when the tags and merge-requests HEAD lookups succeed with
totals `tc` and `mc`, the object-count estimate is the additive
total: commit count + branch count + tag count + file count +
estimated tree objects (file count divided by 10, floor of 1) +
merge-request count. -/
theorem object_count_formula (st : RepoStats) (tc mc : Nat) :
    get_repository_object_count (some ⟨200, some tc⟩) (some ⟨200, some mc⟩) st =
      st.commit_count + st.branch_count + tc + st.all_branches_file_count +
        max (st.all_branches_file_count / 10) 1 + mc := by
  simp [get_repository_object_count]

/-- Counterexample to C5 as stated: a raised tags HEAD inside the
object-count estimate is caught locally but replaced by the fallback
estimate `commit_count + file_count` (13 on `repoStatsRich`), not by
a zero default for the tag count, which would have left the rest of
the additive total (37) intact. -/
theorem tag_failure_fallback_counterexample :
    get_repository_object_count none (some ⟨200, some 0⟩) repoStatsRich =
      repoStatsRich.commit_count + repoStatsRich.file_count ∧
    get_repository_object_count none (some ⟨200, some 0⟩) repoStatsRich = 13 ∧
    repoStatsRich.commit_count + repoStatsRich.branch_count + 0 +
      repoStatsRich.all_branches_file_count +
      max (repoStatsRich.all_branches_file_count / 10) 1 + 0 = 37 ∧
    (13 : Nat) ≠ 37 := by
  exact ⟨rfl, by decide, by decide, by decide⟩

/-- C5 (amended): each sub-query failure among branch count, file
count, pipeline check and the all-branches scan is caught locally and
replaced by its zero/false default without aborting the aggregation;
the main loop's merge-request lookup defaults to zero on a raised
request or a non-200 status; a tags or merge-requests HEAD inside the
object-count estimate that answers without status 200 or without an
`X-Total` header contributes zero, but a raised one degrades the
whole estimate to the fallback `commit_count + file_count` rather
than a zero default; and the emitted record always has exactly the
fixed column set, whatever the sub-query outcomes. -/
theorem subquery_failure_defaults (e : StatsEnv) (p : ListingProject) (c tc mrc : Nat) :
    (e.bcHead = none → (get_repository_stats_via_api e).branch_count = 0) ∧
    (e.fcProjInfo = none → (get_repository_stats_via_api e).file_count = 0) ∧
    (e.plProjInfo = none → (get_repository_stats_via_api e).has_pipeline = false) ∧
    (e.abBranches = none → (get_repository_stats_via_api e).all_branches_file_count = 0 ∧
      (get_repository_stats_via_api e).has_large_file = false) ∧
    (e.ocTags = none → (get_repository_stats_via_api e).object_count =
      (get_repository_stats_via_api e).commit_count +
        (get_repository_stats_via_api e).file_count) ∧
    (e.ocMRs = none → (get_repository_stats_via_api e).object_count =
      (get_repository_stats_via_api e).commit_count +
        (get_repository_stats_via_api e).file_count) ∧
    (∀ (st : RepoStats) (tr mr : HResp), ¬(tr.status = 200 ∧ tr.xTotal.isSome) →
      ¬(mr.status = 200 ∧ mr.xTotal.isSome) →
      get_repository_object_count (some tr) (some mr) st =
        st.commit_count + st.branch_count + st.all_branches_file_count +
          max (st.all_branches_file_count / 10) 1) ∧
    (mainMergeRequestCount none = 0) ∧
    (∀ r : HResp, r.status ≠ 200 → mainMergeRequestCount (some r) = 0) ∧
    ((project_stats p c tc mrc (get_repository_stats_via_api e)).map Prod.fst =
      project_fieldnames) := by
  refine ⟨?_, ?_, ?_, ?_, ?_, ?_, ?_, rfl, ?_, ?_⟩
  · intro h
    rcases hp : e.projDetails with _ | ⟨status, stOpt⟩ <;>
      simp [get_repository_stats_via_api, hp, get_branch_count, h, repoStatsDefaults]
  · intro h
    rcases hp : e.projDetails with _ | ⟨status, stOpt⟩ <;>
      simp [get_repository_stats_via_api, hp, get_repository_file_count, h, repoStatsDefaults]
  · intro h
    rcases hp : e.projDetails with _ | ⟨status, stOpt⟩ <;>
      simp [get_repository_stats_via_api, hp, check_for_pipeline_config, h, repoStatsDefaults]
  · intro h
    rcases hp : e.projDetails with _ | ⟨status, stOpt⟩ <;>
      simp [get_repository_stats_via_api, hp, get_all_branches_file_stats, h, repoStatsDefaults]
  · intro h
    rcases hp : e.projDetails with _ | ⟨status, stOpt⟩ <;>
      simp [get_repository_stats_via_api, hp, h, get_repository_object_count, repoStatsDefaults]
  · intro h
    rcases hp : e.projDetails with _ | ⟨status, stOpt⟩ <;>
      rcases ht : e.ocTags with _ | tr <;>
        simp [get_repository_stats_via_api, hp, h, ht, get_repository_object_count,
          repoStatsDefaults]
  · intro st tr mr h1 h2
    simp [get_repository_object_count, h1, h2]
  · intro r hr
    simp [mainMergeRequestCount, hr]
  · rfl

/-- Witness for C5 (amended): with every sub-query raising, all
defaults hold, the object count collapses to the raised-lookup
fallback, a non-200 tags/merge-requests pair contributes zero on
`repoStatsRich`, and the record still has the fixed column set. -/
theorem subquery_failure_defaults_witness :
    (get_repository_stats_via_api statsEnvFail).branch_count = 0 ∧
    (get_repository_stats_via_api statsEnvFail).file_count = 0 ∧
    (get_repository_stats_via_api statsEnvFail).has_pipeline = false ∧
    (get_repository_stats_via_api statsEnvFail).all_branches_file_count = 0 ∧
    (get_repository_stats_via_api statsEnvFail).has_large_file = false ∧
    (get_repository_stats_via_api statsEnvFail).object_count =
      (get_repository_stats_via_api statsEnvFail).commit_count +
        (get_repository_stats_via_api statsEnvFail).file_count ∧
    get_repository_object_count (some ⟨500, none⟩) (some ⟨500, none⟩) repoStatsRich =
      repoStatsRich.commit_count + repoStatsRich.branch_count +
        repoStatsRich.all_branches_file_count +
        max (repoStatsRich.all_branches_file_count / 10) 1 ∧
    mainMergeRequestCount (some ⟨500, some 4⟩) = 0 ∧
    ((project_stats listingW 0 0 0 (get_repository_stats_via_api statsEnvFail)).map
      Prod.fst = project_fieldnames) := by
  have h := subquery_failure_defaults statsEnvFail listingW 0 0 0
  exact ⟨h.1 rfl, h.2.1 rfl, h.2.2.1 rfl, (h.2.2.2.1 rfl).1, (h.2.2.2.1 rfl).2,
    h.2.2.2.2.1 rfl,
    h.2.2.2.2.2.2.1 repoStatsRich ⟨500, none⟩ ⟨500, none⟩ (by decide) (by decide),
    h.2.2.2.2.2.2.2.2.1 ⟨500, some 4⟩ (by norm_num),
    h.2.2.2.2.2.2.2.2.2⟩

/-- C2: both size-threshold booleans of the emitted record are
computed, with strictly-greater semantics, from the same final
storage size (API statistics with the listing-payload fallback) that
also yields the record's reported `total_size_mb`; exactly 2 GiB
does not set the 2 GiB flag, `6*1024^3 + 1` sets both flags, and the
6 GiB flag implies the 2 GiB flag. -/
theorem size_thresholds_consistent (p : ListingProject) (c tc mrc : Nat) (rs : RepoStats) :
    lookupField (project_stats p c tc mrc rs) "exceeds_2gb" =
      some (.b (decide (2 * 1024 * 1024 * 1024 < finalStorageSize p rs))) ∧
    lookupField (project_stats p c tc mrc rs) "exceeds_6gb" =
      some (.b (decide (6 * 1024 * 1024 * 1024 < finalStorageSize p rs))) ∧
    lookupField (project_stats p c tc mrc rs) "total_size_mb" =
      some (.q (bytes_to_mb (some (finalStorageSize p rs : ℚ)))) ∧
    (finalStorageSize p rs = 2 * 1024 * 1024 * 1024 →
      lookupField (project_stats p c tc mrc rs) "exceeds_2gb" = some (.b false)) ∧
    (finalStorageSize p rs = 6 * 1024 * 1024 * 1024 + 1 →
      lookupField (project_stats p c tc mrc rs) "exceeds_2gb" = some (.b true) ∧
      lookupField (project_stats p c tc mrc rs) "exceeds_6gb" = some (.b true)) ∧
    (lookupField (project_stats p c tc mrc rs) "exceeds_6gb" = some (.b true) →
      lookupField (project_stats p c tc mrc rs) "exceeds_2gb" = some (.b true)) := by
  have h2 : lookupField (project_stats p c tc mrc rs) "exceeds_2gb" =
      some (.b (decide (2 * 1024 * 1024 * 1024 < finalStorageSize p rs))) := rfl
  have h6 : lookupField (project_stats p c tc mrc rs) "exceeds_6gb" =
      some (.b (decide (6 * 1024 * 1024 * 1024 < finalStorageSize p rs))) := rfl
  have hq : lookupField (project_stats p c tc mrc rs) "total_size_mb" =
      some (.q (bytes_to_mb (some (finalStorageSize p rs : ℚ)))) := rfl
  refine ⟨h2, h6, hq, ?_, ?_, ?_⟩
  · intro h
    rw [h2, h]
    norm_num
  · intro h
    rw [h2, h6, h]
    norm_num
  · intro h
    rw [h6] at h
    have hd : decide (6 * 1024 * 1024 * 1024 < finalStorageSize p rs) = true := by
      have := Option.some.inj h
      exact Value.b.inj this
    have hlt : (6 * 1024 * 1024 * 1024 : Nat) < finalStorageSize p rs := of_decide_eq_true hd
    rw [h2]
    have : (2 * 1024 * 1024 * 1024 : Nat) < finalStorageSize p rs := by omega
    simp [this]

/-- Witness for C2: a record whose final storage size is exactly
`6*1024^3 + 1` bytes carries both flags. -/
theorem size_thresholds_consistent_witness :
    finalStorageSize listingW repoStatsDefaults = 6 * 1024 * 1024 * 1024 + 1 ∧
    lookupField (project_stats listingW 0 0 0 repoStatsDefaults) "exceeds_2gb" =
      some (.b true) ∧
    lookupField (project_stats listingW 0 0 0 repoStatsDefaults) "exceeds_6gb" =
      some (.b true) := by
  have h : finalStorageSize listingW repoStatsDefaults = 6 * 1024 * 1024 * 1024 + 1 := rfl
  have hc := (size_thresholds_consistent listingW 0 0 0 repoStatsDefaults).2.2.2.2.1 h
  exact ⟨h, hc.1, hc.2⟩

/-- C6: both scripts exit non-zero when no token is resolvable or the
initial top-level listing fetch fails outright, and exit zero without
writing an output file when zero entities are discovered or zero
projects remain after filtering. -/
theorem exit_behavior (t : String) (groups : Option (List GroupEntry))
    (gs : List GroupEntry) (projectsOf : GroupEntry → Option (List ProjectEntry))
    (filt : Option (List String)) (ok : ProjectEntry → Bool)
    (gok : GroupEntry → Bool) :
    (detailsMain none groups projectsOf filt ok = .failure) ∧
    (groupsMain none groups gok = .failure) ∧
    (detailsMain (some t) none projectsOf filt ok = .failure) ∧
    (groupsMain (some t) none gok = .failure) ∧
    (detailsMain (some t) (some []) projectsOf filt ok = .successNoOutput) ∧
    (groupsMain (some t) (some []) gok = .successNoOutput) ∧
    (effectiveProjects (gs.foldl (fun acc g => acc ++ (projectsOf g).getD []) []) filt = [] →
      detailsMain (some t) (some gs) projectsOf filt ok = .successNoOutput) := by
  refine ⟨rfl, rfl, rfl, rfl, rfl, rfl, ?_⟩
  intro h
  unfold detailsMain
  rcases gs with _ | ⟨g, rest⟩
  · rfl
  · simp only [List.isEmpty_cons, h, List.isEmpty_nil]
    simp [h]

/-- Witness for C6: one group whose project fetch succeeds empty
leaves nothing after filtering, and the run exits zero without
output. -/
theorem exit_behavior_witness :
    effectiveProjects
      (([⟨"g", "g"⟩] : List GroupEntry).foldl
        (fun acc g => acc ++ ((fun _ => some ([] : List ProjectEntry)) g |>.getD [])) [])
      none = [] ∧
    detailsMain (some "tok") (some [⟨"g", "g"⟩]) (fun _ => some []) none
      (fun _ => true) = .successNoOutput := by
  have h : effectiveProjects
      (([⟨"g", "g"⟩] : List GroupEntry).foldl
        (fun acc g => acc ++ ((fun _ => some ([] : List ProjectEntry)) g |>.getD [])) [])
      none = [] := rfl
  exact ⟨h, (exit_behavior "tok" none [⟨"g", "g"⟩] (fun _ => some []) none
    (fun _ => true) (fun _ => true)).2.2.2.2.2.2 h⟩
